import Mathlib

/-!
Verification development for the sih-rag repository.

The repository ships a Next.js frontend (`frontend/src/lib/store.ts`,
`frontend/src/lib/types.ts`, `frontend/src/app/metrics/page.tsx`,
the chat interface component) together with documentation of a FastAPI
RAG backend (retrieval, reranking, context assembly, SSE generation
streaming).  The frontend TypeScript is embedded here directly; the
backend components, whose Python sources are not in the repository
snapshot, are modelled from the specification where a claim needs them
(each such definition says so in its doc comment).

Machine reals (similarity scores) are modelled as `Rat`; JSON metadata
values are modelled by a flat `JsonVal` type; JavaScript string truthiness
(`""` is falsy, any non-empty string truthy, any array truthy) is made
explicit at each use site.
-/

/-- A flat JSON scalar, used for the `metadata: Record<string, any>` fields. -/
inductive JsonVal where
  | str (s : String)
  | num (n : Int)
  | bool (b : Bool)
  | null
deriving DecidableEq, Repr

/-- `Citation` from `frontend/src/lib/types.ts` (lines 2-11). -/
structure Citation where
  number : Nat
  chunk_id : String
  document_id : String
  document_title : String
  document_source : String
  content : String
  metadata : List (String × JsonVal)
  similarity : Option Rat
deriving DecidableEq, Repr

/-!
## Client SSE stream model (`api.chatStream`, `frontend/src/lib/store.ts` 245-313)

The streaming chat client reads the SSE body, splits it into lines, and for
each `data: ` line parses the JSON payload and dispatches on its fields.
A payload is modelled by `SSEData`; a raw line by `SSELine` (a non-data
line, a data line whose payload fails `JSON.parse`, or a parsed payload).
The four callbacks are recorded as a trace of `CB` events.
-/

/-- The fields of a parsed SSE JSON payload that `api.chatStream` inspects:
`parsed.chunk`, `parsed.citations`, `parsed.status`, `parsed.error`.
An absent field is `none`. -/
structure SSEData where
  chunk : Option String := none
  citations : Option (List Citation) := none
  status : Option String := none
  error : Option String := none
deriving DecidableEq, Repr

/-- One line of the decoded SSE body, after `chunk.split('\n')`:
either it does not start with `"data: "`, or its payload fails
`JSON.parse` (both ignored), or it carries a parsed payload. -/
inductive SSELine where
  | noData (raw : String)
  | badJSON (payload : String)
  | data (d : SSEData)
deriving DecidableEq, Repr

/-- A recorded callback invocation of `api.chatStream`:
`onChunk`, `onCitations`, `onComplete`, `onError`. -/
inductive CB where
  | onChunk (chunk : String)
  | onCitations (citations : List Citation)
  | onComplete (fullResponse : String) (citations : List Citation)
  | onError (message : String)
deriving DecidableEq, Repr

/-- The mutable locals of the read loop: `fullResponse` and `citations`
(`store.ts` lines 270-271). -/
structure StreamAcc where
  fullResponse : String
  citations : List Citation
deriving DecidableEq, Repr

/-- Processing of one parsed payload (`store.ts` lines 284-302), in source
order: `if (parsed.chunk)` appends to `fullResponse` and fires `onChunk`
(JS truthiness: the empty string is falsy); `if (parsed.citations)`
overwrites `citations` and fires `onCitations` (a JS array, even empty, is
truthy); `if (parsed.status === 'done')` fires `onComplete` with the
current accumulator; `if (parsed.error)` throws — but that throw is caught
by the same per-line `catch` (line 303, "Ignore parse errors for non-JSON
lines"), so it has no observable effect and the loop continues. -/
def processData (acc : StreamAcc) (d : SSEData) : StreamAcc × List CB :=
  let step1 : StreamAcc × List CB :=
    match d.chunk with
    | some c =>
        if c = "" then (acc, [])
        else ({ acc with fullResponse := acc.fullResponse ++ c }, [CB.onChunk c])
    | none => (acc, [])
  let acc1 := step1.1
  let step2 : StreamAcc × List CB :=
    match d.citations with
    | some cs => ({ acc1 with citations := cs }, [CB.onCitations cs])
    | none => (acc1, [])
  let acc2 := step2.1
  let evs3 : List CB :=
    if d.status = some "done" then [CB.onComplete acc2.fullResponse acc2.citations] else []
  (acc2, step1.2 ++ step2.2 ++ evs3)

/-- Processing of one line of the body (`store.ts` lines 280-307):
non-`data:` lines and unparseable payloads are skipped. -/
def processLine (acc : StreamAcc) : SSELine → StreamAcc × List CB
  | SSELine.noData _ => (acc, [])
  | SSELine.badJSON _ => (acc, [])
  | SSELine.data d => processData acc d

/-- The read loop (`store.ts` lines 273-308) over the decoded line stream,
threading the accumulator and concatenating the callback trace. -/
def processLines (acc : StreamAcc) : List SSELine → StreamAcc × List CB
  | [] => (acc, [])
  | l :: ls =>
    let p := processLine acc l
    let q := processLines p.1 ls
    (q.1, p.2 ++ q.2)

/-- The callback trace of one `api.chatStream` call whose HTTP response
opened successfully, as a function of the decoded SSE lines. -/
def chatStreamTrace (lines : List SSELine) : List CB :=
  (processLines { fullResponse := "", citations := [] } lines).2

/-- Outcome of opening the stream: the `fetch` may reject, the response may
be non-ok (`store.ts` 259-261), the body may be missing (266-268), a
`reader.read()` may reject mid-loop, or the whole body is read. -/
inductive FetchResult where
  | networkError (message : String)
  | httpError (status : Nat)
  | noBody
  | readFailure (linesBefore : List SSELine) (message : String)
  | ok (lines : List SSELine)
deriving DecidableEq, Repr

/-- Full `api.chatStream` callback behaviour: every pre-loop or mid-loop
exception reaches the outer `catch` (line 309-311) which fires `onError`;
a fully-read body yields exactly the line-loop trace. -/
def chatStreamRun : FetchResult → List CB
  | FetchResult.networkError m => [CB.onError m]
  | FetchResult.httpError _ => [CB.onError "Stream request failed"]
  | FetchResult.noBody => [CB.onError "No response body"]
  | FetchResult.readFailure ls m => chatStreamTrace ls ++ [CB.onError m]
  | FetchResult.ok ls => chatStreamTrace ls

/-!
## Backend pipeline, modelled from the spec

The backend Python sources (`backend/core/rag_engine.py`, reranker,
context assembly, SSE endpoint) are not part of the repository snapshot;
only the frontend and documentation are.  The definitions below are
modelled from the specification (§3, §4.3, §4.4, §4.6, §4.7) and from
the repository's own backend documentation, and each doc comment says so.
-/

/-- `Chunk` of the spec data model (§3): immutable ingested content with
identifier, owning document, text, token count, position, metadata.
The owning document's title and source path travel with the chunk, as the
`Citation` wire type (`types.ts`) requires them. -/
structure Chunk where
  id : String
  document_id : String
  document_title : String
  document_source : String
  content : String
  token_count : Nat
  chunk_index : Nat
  metadata : List (String × JsonVal)
deriving DecidableEq, Repr

/-- `Candidate` of the spec data model (§3): a chunk with its
retrieval-stage fused score and the retrieval method that surfaced it. -/
structure Candidate where
  chunk : Chunk
  score : Rat
  method : String
deriving DecidableEq, Repr

/-- `RankedCandidate` of the spec data model (§3): a candidate annotated
with a reranker relevance score (`none` = unranked) and whether the
cross-encoder actually ranked it. -/
structure RankedCandidate where
  candidate : Candidate
  rerankScore : Option Rat
  reranked : Bool
deriving DecidableEq, Repr

/-- Insert one scored pair into a list sorted descending by score. -/
def insertDesc (p : Candidate × Rat) : List (Candidate × Rat) → List (Candidate × Rat)
  | [] => [p]
  | q :: rest => if q.2 ≤ p.2 then p :: q :: rest else q :: insertDesc p rest

/-- Sort scored pairs descending by score (stable insertion sort). -/
def sortDesc : List (Candidate × Rat) → List (Candidate × Rat)
  | [] => []
  | p :: rest => insertDesc p (sortDesc rest)

/-- The degraded output of the reranker: the first `topKFinal` candidates
of the input, in input order, flagged `reranked = false` with no score. -/
def passthroughRanked (candidates : List Candidate) (topKFinal : Nat) :
    List RankedCandidate :=
  (candidates.take topKFinal).map fun c =>
    { candidate := c, rerankScore := none, reranked := false }

/-- Modelled from the spec: the Reranker component (§4.3; backend source
absent from the snapshot, documented in the repository's reranker notes:
"Fallback: If reranker fails, uses original hybrid search scores").
The cross-encoder scoring call's outcome is a parameter: `some scores`
(one per candidate) on success, `none` when the call fails for any reason.
When enabled and scoring succeeds, candidates are sorted descending by
score and the first `topKFinal` are returned flagged `reranked = true`;
when disabled or on failure the component degrades to the passthrough
order instead of returning an error. -/
def rerank (enabled : Bool) (scoreResult : Option (List Rat))
    (candidates : List Candidate) (topKFinal : Nat) :
    Except String (List RankedCandidate) :=
  if enabled then
    match scoreResult with
    | some scores =>
        Except.ok (((sortDesc (candidates.zip scores)).take topKFinal).map fun p =>
          { candidate := p.1, rerankScore := some p.2, reranked := true })
    | none => Except.ok (passthroughRanked candidates topKFinal)
  else
    Except.ok (passthroughRanked candidates topKFinal)

/-- The citation built for the chunk occupying 1-based position `n`
in the assembled context (spec §3, `Citation`; wire shape `types.ts`). -/
def mkCitation (n : Nat) (rc : RankedCandidate) : Citation :=
  { number := n
    chunk_id := rc.candidate.chunk.id
    document_id := rc.candidate.chunk.document_id
    document_title := rc.candidate.chunk.document_title
    document_source := rc.candidate.chunk.document_source
    content := rc.candidate.chunk.content
    metadata := rc.candidate.chunk.metadata
    similarity := some rc.candidate.score }

/-- One labeled context block (spec §4.4: source title/path, chunk text;
backend documentation: `"Source: {filename} (Page {page})\n{chunk_text}"`). -/
def formatBlock (c : Chunk) : String :=
  "Source: " ++ c.document_title ++ " (" ++ c.document_source ++ ")\n" ++ c.content

/-- Worker for `assemble`: walks the ranked candidates keeping a set of
already-seen chunk identifiers, the running token count, and the next
citation number; stops at the first chunk that would exceed the budget. -/
def assembleGo (budget : Nat) (used : Nat) (seen : List String) (n : Nat) :
    List RankedCandidate → String × List Citation
  | [] => ("", [])
  | rc :: rest =>
    if rc.candidate.chunk.id ∈ seen then
      assembleGo budget used seen n rest
    else if budget < used + rc.candidate.chunk.token_count then
      ("", [])
    else
      let tail := assembleGo budget (used + rc.candidate.chunk.token_count)
        (rc.candidate.chunk.id :: seen) (n + 1) rest
      (formatBlock rc.candidate.chunk ++ "\n\n" ++ tail.1, mkCitation n rc :: tail.2)

/-- Modelled from the spec: the Context Assembler (§4.4; backend source
absent from the snapshot).  Deduplicates by chunk identifier, assigns
sequence numbers 1..N in the supplied (post-rerank) order, formats each
chunk into a labeled block under a total token budget; stops including
chunks once the budget would be exceeded.  Empty input yields an empty
context and an empty citation list. -/
def assemble (budget : Nat) (ranked : List RankedCandidate) :
    String × List Citation :=
  assembleGo budget 0 [] 1 ranked

/-- The typed events of the `answer_stream` protocol (spec §4.6):
`citations | token | done | error`. -/
inductive SEvent where
  | citations (cs : List Citation)
  | token (t : String)
  | done (fullText : String)
  | error (reason : String)
deriving DecidableEq, Repr

/-- Whether an event is terminal (`done` or `error`). -/
def SEvent.isTerminal : SEvent → Bool
  | SEvent.done _ => true
  | SEvent.error _ => true
  | _ => false

/-- Modelled from the spec: the Generation Streamer's event sequence for
one `answer_stream` run (§4.6; backend source absent from the snapshot).
A `citations` event (possibly with the empty list) is emitted first, then
the generated tokens in order, then exactly one terminal event: `done`
carrying the concatenated answer on success, or `error` when the LLM
stream fails mid-flight (`failure = some reason`, the already-emitted
tokens being exactly those delivered before the failure). -/
def answerStreamEvents (cs : List Citation) (toks : List String)
    (failure : Option String) : List SEvent :=
  SEvent.citations cs :: (toks.map SEvent.token ++
    [match failure with
     | none => SEvent.done (String.join toks)
     | some r => SEvent.error r])

/-- The SSE framing of one backend event as the client decodes it
(repository docs: "Send SSE: citations / tokens (streaming) / done
signal"; the client reads `parsed.chunk`, `parsed.citations`,
`parsed.status === 'done'`, `parsed.error`). -/
def serializeEvent : SEvent → SSELine
  | SEvent.citations cs => SSELine.data { citations := some cs }
  | SEvent.token t => SSELine.data { chunk := some t }
  | SEvent.done _ => SSELine.data { status := some "done" }
  | SEvent.error r => SSELine.data { error := some r }

/-- The client callback trace produced by consuming a backend event
sequence through `api.chatStream`'s read loop. -/
def clientTrace (es : List SEvent) : List CB :=
  chatStreamTrace (es.map serializeEvent)

/-- The orchestrator's terminal state for one query (spec §4.7):
`DONE` with answer text and citations, or `FAILED`. -/
inductive PipelineResult where
  | done (answerText : String) (citations : List Citation)
  | failed (reason : String)
deriving DecidableEq, Repr

/-- Modelled from the spec: the non-streaming `answer` entry point as the
pipeline collapsed to one call (§4.6, §4.7; backend source absent from
the snapshot).  Retrieval output (possibly empty) flows into `assemble`;
the LLM outcome is a parameter (`some toks` = generated token list,
`none` = generation failure); all tokens are accumulated into one
response beside the citation list. -/
def runAnswer (retrieved : List RankedCandidate) (budget : Nat)
    (llmOutcome : Option (List String)) : PipelineResult :=
  let assembled := assemble budget retrieved
  match llmOutcome with
  | some toks => PipelineResult.done (String.join toks) assembled.2
  | none => PipelineResult.failed "GenerationError"

/-!
## Trace predicates

Executable Bool-valued predicates over backend event sequences and client
callback traces; the claims are stated through them.
-/

/-- Exactly one terminal event, and it closes the sequence: every event
before the last is non-terminal and the last one is terminal (the empty
sequence has no terminal and is not well-formed). -/
def wfStream (es : List SEvent) : Bool :=
  es.dropLast.all (fun e => !e.isTerminal) &&
    (match es.getLast? with
     | some e => e.isTerminal
     | none => false)

/-- Whether a callback event is `onChunk`, `onCitations` or `onComplete`. -/
def CB.isContentEvent : CB → Bool
  | CB.onChunk _ => true
  | CB.onCitations _ => true
  | CB.onComplete _ _ => true
  | _ => false

/-- `onComplete` occurs at most once, and once it has occurred no further
`onChunk`, `onCitations` or `onComplete` follows it. -/
def completeClosesTrace : List CB → Bool
  | [] => true
  | CB.onComplete _ _ :: rest => rest.all fun e => !e.isContentEvent
  | _ :: rest => completeClosesTrace rest

/-- A `citations` event occurs before the first `token` event of a
backend event sequence (vacuously true when no `token` ever occurs). -/
def citationsBeforeToken : List SEvent → Bool
  | [] => true
  | SEvent.citations _ :: _ => true
  | SEvent.token _ :: _ => false
  | _ :: rest => citationsBeforeToken rest

/-- An `onCitations` invocation happens before the first `onChunk`
invocation (vacuously true when no `onChunk` ever occurs). -/
def citationsBeforeChunk : List CB → Bool
  | [] => true
  | CB.onCitations _ :: _ => true
  | CB.onChunk _ :: _ => false
  | _ :: rest => citationsBeforeChunk rest

/-- Scanning the trace with the concatenation of the chunks delivered so
far: every `onComplete` carries exactly that concatenation as its
`fullResponse` argument. -/
def completesEqualPriorChunks : String → List CB → Bool
  | _, [] => true
  | s, CB.onChunk c :: rest => completesEqualPriorChunks (s ++ c) rest
  | s, CB.onComplete f _ :: rest => f == s && completesEqualPriorChunks s rest
  | s, _ :: rest => completesEqualPriorChunks s rest

/-- The trace contains an `onComplete` whose citations argument is `[]`. -/
def hasEmptyCitationsComplete (tr : List CB) : Bool :=
  tr.any fun e =>
    match e with
    | CB.onComplete _ cs => cs.isEmpty
    | _ => false

/-- The trace contains no `onError` invocation. -/
def traceErrorFree (tr : List CB) : Bool :=
  tr.all fun e =>
    match e with
    | CB.onError _ => false
    | _ => true

/-!
## Chat store (`useChatStore`, `frontend/src/lib/store.ts` 7-168)

The Zustand store state is embedded as `ChatState`.  The two impure
inputs — `generateId()` (`Math.random().toString(36).substring(7)`) and
`Date.now()` — are passed in as explicit parameters wherever an operation
uses them.
-/

/-- `ChatMessage.role` from `frontend/src/lib/types.ts`. -/
inductive Role where
  | user
  | assistant
deriving DecidableEq, Repr

/-- `ChatMessage` from `frontend/src/lib/types.ts` (lines 13-17). -/
structure ChatMessage where
  role : Role
  content : String
  citations : Option (List Citation) := none
deriving DecidableEq, Repr

/-- `Conversation` from `store.ts` (lines 7-13). -/
structure Conversation where
  id : String
  title : String
  messages : List ChatMessage
  createdAt : Nat
  updatedAt : Nat
deriving DecidableEq, Repr

/-- The persisted chat store state (`store.ts` lines 15-18, 50-52). -/
structure ChatState where
  conversations : List Conversation
  currentConversationId : Option String
  isStreaming : Bool
deriving DecidableEq, Repr

/-- `generateTitle` (`store.ts` lines 41-45): the first user message's
content cut to 50 characters, with `"..."` appended exactly when the
content is longer than 50; `"New Chat"` when no user message exists. -/
def generateTitle (messages : List ChatMessage) : String :=
  match messages.find? (fun m => m.role = Role.user) with
  | none => "New Chat"
  | some m => m.content.take 50 ++ (if 50 < m.content.length then "..." else "")

/-- `createConversation` (`store.ts` lines 54-67). -/
def createConversation (newId : String) (now : Nat) (st : ChatState) : ChatState :=
  let nc : Conversation :=
    { id := newId, title := "New Chat", messages := [], createdAt := now, updatedAt := now }
  { st with conversations := nc :: st.conversations, currentConversationId := some newId }

/-- `deleteConversation` (`store.ts` lines 69-80).  The surviving list is
`conversations.filter(c => c.id !== id)`.  The new current id mirrors
`newConversations[0]?.id || null`: JavaScript `||` yields `null` not only
when no conversation remains but also when the first survivor's id is the
empty string (an empty string is falsy). -/
def deleteConversation (id : String) (st : ChatState) : ChatState :=
  let newConversations := st.conversations.filter fun c => c.id ≠ id
  let newCurrentId :=
    if st.currentConversationId = some id then
      match newConversations.head? with
      | some c => if c.id = "" then none else some c.id
      | none => none
    else st.currentConversationId
  { st with conversations := newConversations, currentConversationId := newCurrentId }

/-- The conversation `addMessage` creates when no conversation is current
(`store.ts` lines 99-106). -/
def freshConversation (newId : String) (now : Nat) (message : ChatMessage) :
    Conversation :=
  { id := newId
    title := if message.role = Role.user then generateTitle [message] else "New Chat"
    messages := [message]
    createdAt := now
    updatedAt := now }

/-- The per-conversation update `addMessage` maps over the list when a
conversation is current (`store.ts` lines 113-126): the conversation
whose id matches the current id gets the message appended, its title
regenerated when it was empty and the message is a user message, and its
`updatedAt` refreshed; every other conversation is returned unchanged. -/
def appendHere (currentId : String) (now : Nat) (message : ChatMessage)
    (conv : Conversation) : Conversation :=
  if conv.id = currentId then
    { conv with
      messages := conv.messages ++ [message]
      title :=
        if conv.messages.length = 0 ∧ message.role = Role.user then
          generateTitle (conv.messages ++ [message])
        else conv.title
      updatedAt := now }
  else conv

/-- `addMessage` (`store.ts` lines 94-130).  With no current conversation
a fresh one is prepended and becomes current; otherwise the current
conversation is updated in place via `appendHere`. -/
def addMessage (newId : String) (now : Nat) (message : ChatMessage)
    (st : ChatState) : ChatState :=
  match st.currentConversationId with
  | none =>
    { st with
      conversations := freshConversation newId now message :: st.conversations
      currentConversationId := some newId }
  | some currentId =>
    { st with
      conversations := st.conversations.map (appendHere currentId now message) }

/-- `getCurrentMessages` (`store.ts` lines 153-157): the messages of the
first conversation whose id equals the current id, `[]` when none
matches or no conversation is current. -/
def getCurrentMessages (st : ChatState) : List ChatMessage :=
  match st.conversations.find? (fun c => some c.id = st.currentConversationId) with
  | some c => c.messages
  | none => []

/-!
## Prometheus metrics parsing (`frontend/src/app/metrics/page.tsx` 11-142)

`parsePrometheusMetrics` scans the text line by line; each recognized
metric line updates one field of the accumulated `MetricsData`.  The
JavaScript regular-expression matches are abstracted as an explicit
`RegexMatchers` record of capture functions (one per regex of the source,
already composed with `parseFloat`), so every theorem below holds for
every possible match outcome.  All other string operations (`split`,
`startsWith`, `trim`, `includes`) are embedded directly.
-/

/-- An entry of `MetricsData.search_latency` (`page.tsx` line 12). -/
structure SearchLatencyEntry where
  method : String
  count : Rat
  sum : Rat
deriving DecidableEq, Repr

/-- `MetricsData.generation_latency` (`page.tsx` line 13). -/
structure GenerationLatency where
  model : String
  count : Rat
  sum : Rat
deriving DecidableEq, Repr

/-- `MetricsData.chunks_retrieved` (`page.tsx` line 14). -/
structure CountSum where
  count : Rat
  sum : Rat
deriving DecidableEq, Repr

/-- An entry of `MetricsData.requests` (`page.tsx` line 15). -/
structure RequestEntry where
  status : String
  count : Rat
deriving DecidableEq, Repr

/-- An entry of `MetricsData.http_requests` (`page.tsx` line 16). -/
structure HttpRequestEntry where
  handler : String
  method : String
  status : String
  count : Rat
deriving DecidableEq, Repr

/-- `MetricsData.ingestion` (`page.tsx` line 17). -/
structure IngestionStats where
  documents : Rat
  chunks : Rat
deriving DecidableEq, Repr

/-- `MetricsData` (`page.tsx` lines 11-18). -/
structure MetricsData where
  search_latency : List SearchLatencyEntry
  generation_latency : GenerationLatency
  chunks_retrieved : CountSum
  requests : List RequestEntry
  http_requests : List HttpRequestEntry
  ingestion : IngestionStats
deriving DecidableEq, Repr

/-- The initializer of the accumulator (`page.tsx` lines 50-57); in
particular `ingestion` starts as `\x7b documents: 0, chunks: 0 \x7d`. -/
def initMetricsData : MetricsData :=
  { search_latency := []
    generation_latency := { model := "", count := 0, sum := 0 }
    chunks_retrieved := { count := 0, sum := 0 }
    requests := []
    http_requests := []
    ingestion := { documents := 0, chunks := 0 } }

/-- JavaScript `String.prototype.includes`. -/
def hasSubstr (s pat : String) : Bool :=
  (s.splitOn pat).length != 1

/-- The regular-expression capture functions of `parsePrometheusMetrics`,
each already composed with `parseFloat` on its numeric group; `none`
models a failed match. -/
structure RegexMatchers where
  methodNum : String → Option (String × Rat)
  modelNum : String → Option (String × Rat)
  trailingNum : String → Option Rat
  statusNum : String → Option (String × Rat)
  httpNum : String → Option (String × String × String × Rat)

/-- `existing.sum = sum` on the first entry found for `method`
(`page.tsx` lines 68-71): JavaScript `find` returns the first match and
the assignment mutates that object in place. -/
def setSumOfFirst (l : List SearchLatencyEntry) (m : String) (v : Rat) :
    List SearchLatencyEntry :=
  match l with
  | [] => []
  | e :: rest =>
    if e.method = m then { e with sum := v } :: rest
    else e :: setSumOfFirst rest m v

/-- `existing.count = count` on the first entry found for `method`
(`page.tsx` lines 81-84). -/
def setCountOfFirst (l : List SearchLatencyEntry) (m : String) (v : Rat) :
    List SearchLatencyEntry :=
  match l with
  | [] => []
  | e :: rest =>
    if e.method = m then { e with count := v } :: rest
    else e :: setCountOfFirst rest m v

/-- The `rag_search_latency_seconds_sum` branch (`page.tsx` lines 63-75):
update the matching entry's sum, or push a new entry with count 0. -/
def updSearchSum (rx : RegexMatchers) (line : String) (d : MetricsData) :
    MetricsData :=
  if hasSubstr line "rag_search_latency_seconds_sum" then
    match rx.methodNum line with
    | some (method, v) =>
      if (d.search_latency.find? fun s => s.method = method).isSome then
        { d with search_latency := setSumOfFirst d.search_latency method v }
      else
        { d with search_latency := d.search_latency ++ [{ method := method, count := 0, sum := v }] }
    | none => d
  else d

/-- The `rag_search_latency_seconds_count` branch (`page.tsx` 76-86):
only an existing entry is updated, nothing is pushed. -/
def updSearchCount (rx : RegexMatchers) (line : String) (d : MetricsData) :
    MetricsData :=
  if hasSubstr line "rag_search_latency_seconds_count" then
    match rx.methodNum line with
    | some (method, v) =>
      if (d.search_latency.find? fun s => s.method = method).isSome then
        { d with search_latency := setCountOfFirst d.search_latency method v }
      else d
    | none => d
  else d

/-- The `rag_generation_latency_seconds_sum` branch (`page.tsx` 89-95). -/
def updGenSum (rx : RegexMatchers) (line : String) (d : MetricsData) :
    MetricsData :=
  if hasSubstr line "rag_generation_latency_seconds_sum" then
    match rx.modelNum line with
    | some (model, v) =>
      { d with generation_latency := { d.generation_latency with model := model, sum := v } }
    | none => d
  else d

/-- The `rag_generation_latency_seconds_count` branch (`page.tsx` 96-101). -/
def updGenCount (rx : RegexMatchers) (line : String) (d : MetricsData) :
    MetricsData :=
  if hasSubstr line "rag_generation_latency_seconds_count" then
    match rx.modelNum line with
    | some (_, v) =>
      { d with generation_latency := { d.generation_latency with count := v } }
    | none => d
  else d

/-- The `rag_chunks_retrieved_count_sum` branch (`page.tsx` 104-107). -/
def updChunksSum (rx : RegexMatchers) (line : String) (d : MetricsData) :
    MetricsData :=
  if hasSubstr line "rag_chunks_retrieved_count_sum" then
    match rx.trailingNum line with
    | some v => { d with chunks_retrieved := { d.chunks_retrieved with sum := v } }
    | none => d
  else d

/-- The `rag_chunks_retrieved_count_count` branch (`page.tsx` 108-111). -/
def updChunksCount (rx : RegexMatchers) (line : String) (d : MetricsData) :
    MetricsData :=
  if hasSubstr line "rag_chunks_retrieved_count_count" then
    match rx.trailingNum line with
    | some v => { d with chunks_retrieved := { d.chunks_retrieved with count := v } }
    | none => d
  else d

/-- The `rag_requests_total\x7bstatus=` branch (`page.tsx` 114-119). -/
def updRequests (rx : RegexMatchers) (line : String) (d : MetricsData) :
    MetricsData :=
  if hasSubstr line "rag_requests_total\x7bstatus=" then
    match rx.statusNum line with
    | some (status, v) =>
      { d with requests := d.requests ++ [{ status := status, count := v }] }
    | none => d
  else d

/-- The `http_requests_total\x7bhandler=` branch (`page.tsx` 122-132). -/
def updHttp (rx : RegexMatchers) (line : String) (d : MetricsData) :
    MetricsData :=
  if hasSubstr line "http_requests_total\x7bhandler=" then
    match rx.httpNum line with
    | some (handler, method, status, v) =>
      { d with http_requests :=
          d.http_requests ++ [{ handler := handler, method := method, status := status, count := v }] }
    | none => d
  else d

/-- The `ingestion_chunks_created_total` branch (`page.tsx` 135-138):
only `ingestion.chunks` is assigned; `ingestion.documents` is never
touched by any branch of the parser. -/
def updIngestion (rx : RegexMatchers) (line : String) (d : MetricsData) :
    MetricsData :=
  if hasSubstr line "ingestion_chunks_created_total" then
    match rx.trailingNum line with
    | some v => { d with ingestion := { d.ingestion with chunks := v } }
    | none => d
  else d

/-- Processing of one line of the Prometheus payload (`page.tsx` 59-139):
comment lines and blank lines are skipped, otherwise every branch is
tried in source order. -/
def parseMetricsLine (rx : RegexMatchers) (d : MetricsData) (line : String) :
    MetricsData :=
  if line.startsWith "#" || line.trim = "" then d
  else
    updIngestion rx line (updHttp rx line (updRequests rx line
      (updChunksCount rx line (updChunksSum rx line
        (updGenCount rx line (updGenSum rx line
          (updSearchCount rx line (updSearchSum rx line d))))))))

/-- `parsePrometheusMetrics` (`page.tsx` lines 48-142): split the payload
on newlines and fold every line into the accumulator. -/
def parsePrometheusMetrics (rx : RegexMatchers) (text : String) : MetricsData :=
  (text.splitOn "\n").foldl (parseMetricsLine rx) initMetricsData

/-- The concrete SSE line stream of a generation that emits one token,
then fails mid-flight with an error payload, then (illustrating that the
client keeps consuming) another token. -/
def c1Lines : List SSELine :=
  [SSELine.data { chunk := some "Hello" },
   SSELine.data { error := some "GenerationError" },
   SSELine.data { chunk := some " world" }]

/-- The chat-store state of the C9 counterexample: the current
conversation `"a"` is followed by a conversation whose id is the empty
string — a producible id, since `generateId`'s
`Math.random().toString(36).substring(7)` returns `""` whenever the
random number's base-36 representation has at most 7 characters
(e.g. `0.5` prints as `"0.i"`). -/
def stC9 : ChatState :=
  { conversations :=
      [{ id := "a", title := "A", messages := [], createdAt := 0, updatedAt := 0 },
       { id := "", title := "B", messages := [], createdAt := 0, updatedAt := 0 }]
    currentConversationId := some "a"
    isStreaming := false }

/-- A one-conversation chat-store state used to instantiate hypotheses
at a closed input. -/
def stW : ChatState :=
  { conversations :=
      [{ id := "a", title := "A", messages := [], createdAt := 0, updatedAt := 0 }]
    currentConversationId := some "a"
    isStreaming := false }

/-- A concrete chunk, used to instantiate hypotheses of the theorems
below at a closed input. -/
def sampleChunk : Chunk :=
  { id := "c1", document_id := "d1", document_title := "Refund Policy",
    document_source := "docs/refunds.pdf", content := "Refunds within 30 days.",
    token_count := 6, chunk_index := 0, metadata := [] }

/-- A concrete retrieval candidate over `sampleChunk`. -/
def sampleCandidate : Candidate :=
  { chunk := sampleChunk, score := (81 : Rat) / 100, method := "hybrid" }

/-!
## Lemmas
-/

lemma updSearchSum_documents (rx : RegexMatchers) (line : String) (d : MetricsData) :
    (updSearchSum rx line d).ingestion.documents = d.ingestion.documents := by
  unfold updSearchSum
  repeat' split
  all_goals rfl

lemma updSearchCount_documents (rx : RegexMatchers) (line : String) (d : MetricsData) :
    (updSearchCount rx line d).ingestion.documents = d.ingestion.documents := by
  unfold updSearchCount
  repeat' split
  all_goals rfl

lemma updGenSum_documents (rx : RegexMatchers) (line : String) (d : MetricsData) :
    (updGenSum rx line d).ingestion.documents = d.ingestion.documents := by
  unfold updGenSum
  repeat' split
  all_goals rfl

lemma updGenCount_documents (rx : RegexMatchers) (line : String) (d : MetricsData) :
    (updGenCount rx line d).ingestion.documents = d.ingestion.documents := by
  unfold updGenCount
  repeat' split
  all_goals rfl

lemma updChunksSum_documents (rx : RegexMatchers) (line : String) (d : MetricsData) :
    (updChunksSum rx line d).ingestion.documents = d.ingestion.documents := by
  unfold updChunksSum
  repeat' split
  all_goals rfl

lemma updChunksCount_documents (rx : RegexMatchers) (line : String) (d : MetricsData) :
    (updChunksCount rx line d).ingestion.documents = d.ingestion.documents := by
  unfold updChunksCount
  repeat' split
  all_goals rfl

lemma updRequests_documents (rx : RegexMatchers) (line : String) (d : MetricsData) :
    (updRequests rx line d).ingestion.documents = d.ingestion.documents := by
  unfold updRequests
  repeat' split
  all_goals rfl

lemma updHttp_documents (rx : RegexMatchers) (line : String) (d : MetricsData) :
    (updHttp rx line d).ingestion.documents = d.ingestion.documents := by
  unfold updHttp
  repeat' split
  all_goals rfl

lemma updIngestion_documents (rx : RegexMatchers) (line : String) (d : MetricsData) :
    (updIngestion rx line d).ingestion.documents = d.ingestion.documents := by
  unfold updIngestion
  repeat' split
  all_goals rfl

lemma parseMetricsLine_documents (rx : RegexMatchers) (d : MetricsData) (line : String) :
    (parseMetricsLine rx d line).ingestion.documents = d.ingestion.documents := by
  unfold parseMetricsLine
  split
  · rfl
  · rw [updIngestion_documents, updHttp_documents, updRequests_documents,
      updChunksCount_documents, updChunksSum_documents, updGenCount_documents,
      updGenSum_documents, updSearchCount_documents, updSearchSum_documents]

lemma foldl_parseMetricsLine_documents (rx : RegexMatchers) :
    ∀ (lines : List String) (d : MetricsData),
      (lines.foldl (parseMetricsLine rx) d).ingestion.documents =
        d.ingestion.documents := by
  intro lines
  induction lines with
  | nil => intro d; rfl
  | cons l ls ih =>
    intro d
    rw [List.foldl_cons, ih, parseMetricsLine_documents]

lemma completesEqualPriorChunks_processLine (acc : StreamAcc) (l : SSELine)
    (k : List CB) :
    completesEqualPriorChunks acc.fullResponse ((processLine acc l).2 ++ k) =
      completesEqualPriorChunks ((processLine acc l).1).fullResponse k := by
  cases l with
  | noData r => rfl
  | badJSON p => rfl
  | data d =>
    rcases d with ⟨ch, cits, stfield, er⟩
    cases ch with
    | none =>
      cases cits <;> by_cases h : stfield = some "done" <;>
        simp [processLine, processData, h, completesEqualPriorChunks]
    | some c =>
      by_cases hc : c = "" <;> cases cits <;> by_cases h : stfield = some "done" <;>
        simp [processLine, processData, h, hc, completesEqualPriorChunks]

lemma completesEqualPriorChunks_processLines :
    ∀ (lines : List SSELine) (acc : StreamAcc),
      completesEqualPriorChunks acc.fullResponse ((processLines acc lines).2) = true := by
  intro lines
  induction lines with
  | nil => intro acc; rfl
  | cons l ls ih =>
    intro acc
    simp only [processLines]
    rw [completesEqualPriorChunks_processLine]
    exact ih _

lemma assembleGo_numbers (budget : Nat) :
    ∀ (rcs : List RankedCandidate) (used : Nat) (seen : List String) (n : Nat),
      (assembleGo budget used seen n rcs).2.map Citation.number =
        List.range' n (assembleGo budget used seen n rcs).2.length := by
  intro rcs
  induction rcs with
  | nil => intro used seen n; rfl
  | cons rc rest ih =>
    intro used seen n
    simp only [assembleGo]
    split
    · exact ih used seen n
    · split
      · rfl
      · simp only [List.map_cons, List.length_cons, List.range'_succ, mkCitation]
        rw [ih]

lemma wfStream_concat_terminal (body : List SEvent) (e : SEvent)
    (hbody : body.all (fun x => !x.isTerminal) = true) (he : e.isTerminal = true) :
    wfStream (body ++ [e]) = true := by
  unfold wfStream
  rw [List.dropLast_concat, List.getLast?_concat]
  simp [hbody, he]

lemma body_tokens_nonterminal (cs : List Citation) (toks : List String) :
    (SEvent.citations cs :: toks.map SEvent.token).all (fun x => !x.isTerminal) = true := by
  simp [SEvent.isTerminal, List.all_map, Function.comp]

lemma chatStreamTrace_citations_cons (cs : List Citation) (rest : List SSELine) :
    chatStreamTrace (SSELine.data { citations := some cs } :: rest) =
      CB.onCitations cs ::
        (processLines { fullResponse := "", citations := cs } rest).2 := by
  simp [chatStreamTrace, processLines, processLine, processData]

lemma clientTrace_answerStream (cs : List Citation) (toks : List String)
    (failure : Option String) :
    clientTrace (answerStreamEvents cs toks failure) =
      CB.onCitations cs ::
        (processLines { fullResponse := "", citations := cs }
          (toks.map (fun t => SSELine.data { chunk := some t }) ++
            [serializeEvent (match failure with
              | none => SEvent.done (String.join toks)
              | some r => SEvent.error r)])).2 := by
  cases failure <;>
    · rw [clientTrace, answerStreamEvents]
      simp only [List.map_cons, List.map_append, List.map_map, List.map_nil,
        Function.comp, serializeEvent]
      rw [chatStreamTrace_citations_cons]
      simp [Function.comp_def, serializeEvent]

lemma completeClosesTrace_tokens_terminal :
    ∀ (toks : List String) (acc : StreamAcc) (e : SEvent), e.isTerminal = true →
      completeClosesTrace
        ((processLines acc (toks.map (fun t => SSELine.data { chunk := some t }) ++
          [serializeEvent e])).2) = true := by
  intro toks
  induction toks with
  | nil =>
    intro acc e he
    cases e <;> simp [SEvent.isTerminal] at he <;>
      simp [serializeEvent, processLines, processLine, processData, completeClosesTrace]
  | cons t ts ih =>
    intro acc e he
    by_cases ht : t = "" <;>
      simp only [List.map_cons, List.cons_append, processLines, processLine,
        processData, ht, if_pos, if_neg] <;>
      simp [completeClosesTrace, ht, ih _ _ he]

lemma hasEmptyCitationsComplete_cons_citations (cs : List Citation) (r : List CB) :
    hasEmptyCitationsComplete (CB.onCitations cs :: r) = hasEmptyCitationsComplete r := by
  simp [hasEmptyCitationsComplete]

lemma hasEmptyComplete_tokens_done :
    ∀ (toks : List String) (fr : String),
      hasEmptyCitationsComplete
        ((processLines { fullResponse := fr, citations := [] }
          (toks.map (fun t => SSELine.data { chunk := some t }) ++
            [SSELine.data { status := some "done" }])).2) = true := by
  intro toks
  induction toks with
  | nil =>
    intro fr
    simp [processLines, processLine, processData, hasEmptyCitationsComplete]
  | cons t ts ih =>
    intro fr
    by_cases ht : t = ""
    · simp only [List.map_cons, List.cons_append, processLines, processLine,
        processData, ht, if_pos, if_neg]
      have h := ih fr
      simp [hasEmptyCitationsComplete] at h ⊢
      simpa using h
    · simp only [List.map_cons, List.cons_append, processLines, processLine,
        processData, ht, if_pos, if_neg]
      have h := ih (fr ++ t)
      simp [hasEmptyCitationsComplete, ht] at h ⊢
      simpa using h

lemma traceErrorFree_append (a b : List CB) :
    traceErrorFree (a ++ b) = (traceErrorFree a && traceErrorFree b) := by
  simp [traceErrorFree, List.all_append]

lemma traceErrorFree_processLine (acc : StreamAcc) (l : SSELine) :
    traceErrorFree ((processLine acc l).2) = true := by
  cases l with
  | noData r => rfl
  | badJSON p => rfl
  | data d =>
    rcases d with ⟨ch, cits, stfield, er⟩
    cases ch with
    | none =>
      cases cits <;> by_cases h : stfield = some "done" <;>
        simp [processLine, processData, h, traceErrorFree]
    | some c =>
      by_cases hc : c = "" <;> cases cits <;> by_cases h : stfield = some "done" <;>
        simp [processLine, processData, h, hc, traceErrorFree]

lemma traceErrorFree_processLines :
    ∀ (lines : List SSELine) (acc : StreamAcc),
      traceErrorFree ((processLines acc lines).2) = true := by
  intro lines
  induction lines with
  | nil => intro acc; rfl
  | cons l ls ih =>
    intro acc
    simp only [processLines]
    rw [traceErrorFree_append, traceErrorFree_processLine, ih]
    rfl

lemma appendHere_id (currentId : String) (now : Nat) (message : ChatMessage)
    (conv : Conversation) :
    (appendHere currentId now message conv).id = conv.id := by
  unfold appendHere
  split <;> rfl

lemma find?_id_map_appendHere (currentId : String) (now : Nat)
    (message : ChatMessage) (o : Option String) :
    ∀ l : List Conversation,
      (l.map (appendHere currentId now message)).find? (fun c => some c.id = o) =
        (l.find? (fun c => some c.id = o)).map (appendHere currentId now message) := by
  intro l
  induction l with
  | nil => rfl
  | cons c rest ih =>
    rw [List.map_cons, List.find?_cons, List.find?_cons, appendHere_id]
    by_cases h : some c.id = o
    · simp [h]
    · simp [h, ih]

/-!
## Claim theorems
-/

/-- C1: a mid-stream generation failure — an SSE line whose JSON payload
carries an `error` field — is NOT surfaced by `api.chatStream`: the
`throw new Error(parsed.error)` of `store.ts` line 301 is caught by the
same per-line `catch` whose comment says it is meant for JSON parse
errors, so on the concrete failing stream `c1Lines` the trace contains no
`onError` at all, the loop keeps consuming tokens after the error payload,
and only the `onChunk` deliveries remain.  This contradicts the spec's
`GenerationError` clause, so the claim marks a code bug. -/
theorem chatStream_midstream_error_payload_ignored :
    chatStreamRun (FetchResult.ok c1Lines) =
      [CB.onChunk "Hello", CB.onChunk " world"] ∧
    traceErrorFree (chatStreamRun (FetchResult.ok c1Lines)) = true := by
  constructor
  · rfl
  · rfl

/-- C2: in `api.chatStream`, every `onComplete` invocation carries as
`fullResponse` exactly the in-order concatenation of the `chunk` strings
passed to `onChunk` earlier in the same call — for every possible decoded
SSE line stream. -/
theorem chatStream_onComplete_concats_onChunk (lines : List SSELine) :
    completesEqualPriorChunks "" (chatStreamTrace lines) = true :=
  completesEqualPriorChunks_processLines lines { fullResponse := "", citations := [] }

/-- C3: every `answer_stream` event sequence (the Generation Streamer
modelled from the spec, the backend source being absent from the
snapshot) is closed by exactly one terminal event — `done` on success,
`error` on mid-flight failure — with no event after it; and the client
trace `api.chatStream` produces from consuming any such sequence invokes
`onComplete` at most once, with no `onChunk`, `onCitations` or further
`onComplete` after it. -/
theorem answerStream_single_terminal_client_completes_once
    (cs : List Citation) (toks : List String) (failure : Option String) :
    wfStream (answerStreamEvents cs toks failure) = true ∧
    completeClosesTrace (clientTrace (answerStreamEvents cs toks failure)) = true := by
  constructor
  · cases failure with
    | none =>
      exact wfStream_concat_terminal (SEvent.citations cs :: toks.map SEvent.token)
        (SEvent.done (String.join toks)) (body_tokens_nonterminal cs toks) rfl
    | some r =>
      exact wfStream_concat_terminal (SEvent.citations cs :: toks.map SEvent.token)
        (SEvent.error r) (body_tokens_nonterminal cs toks) rfl
  · rw [clientTrace_answerStream]
    show completeClosesTrace
      ((processLines { fullResponse := "", citations := cs } _).2) = true
    cases failure with
    | none => exact completeClosesTrace_tokens_terminal toks _ (SEvent.done (String.join toks)) rfl
    | some r => exact completeClosesTrace_tokens_terminal toks _ (SEvent.error r) rfl

/-- C4: in every `answer_stream` event sequence (Generation Streamer
modelled from the spec, the backend source being absent from the
snapshot) the citations event — possibly carrying the empty list —
precedes the first token event, and correspondingly the client trace of
`api.chatStream` invokes `onCitations` before its first `onChunk`. -/
theorem answerStream_citations_precede_first_token
    (cs : List Citation) (toks : List String) (failure : Option String) :
    citationsBeforeToken (answerStreamEvents cs toks failure) = true ∧
    citationsBeforeChunk (clientTrace (answerStreamEvents cs toks failure)) = true := by
  constructor
  · rfl
  · rw [clientTrace_answerStream]
    rfl

/-- C5: the Context Assembler (modelled from the spec, the backend source
being absent from the snapshot) assigns citation numbers that are exactly
`1..N` in list order — contiguous, starting at 1, in the supplied
(post-rerank) order, never reused — for every ranked candidate list and
every token budget. -/
theorem assemble_citation_numbers_contiguous
    (budget : Nat) (ranked : List RankedCandidate) :
    (assemble budget ranked).2.map Citation.number =
      List.range' 1 (assemble budget ranked).2.length :=
  assembleGo_numbers budget ranked 0 [] 1

/-- C6: when the reranker is disabled by configuration or its scoring
call fails (modelled from the spec and the repository's reranker notes,
the backend source being absent from the snapshot), `rerank` never
returns an error: it yields the first `top_k_final` input candidates in
input order unchanged — or fewer when the pool is smaller — each flagged
`reranked = false` with no reranker score. -/
theorem rerank_fallback_safe (enabled : Bool) (scoreResult : Option (List Rat))
    (candidates : List Candidate) (topKFinal : Nat)
    (h : enabled = false ∨ scoreResult = none) :
    rerank enabled scoreResult candidates topKFinal =
      Except.ok (passthroughRanked candidates topKFinal) ∧
    (passthroughRanked candidates topKFinal).map RankedCandidate.candidate =
      candidates.take topKFinal ∧
    (∀ rc ∈ passthroughRanked candidates topKFinal,
      rc.reranked = false ∧ rc.rerankScore = none) ∧
    (passthroughRanked candidates topKFinal).length =
      min topKFinal candidates.length := by
  refine ⟨?_, ?_, ?_, ?_⟩
  · rcases h with h | h
    · rw [h]; rfl
    · rw [h]; cases enabled <;> rfl
  · simp [passthroughRanked, Function.comp_def]
  · intro rc hrc
    simp only [passthroughRanked, List.mem_map] at hrc
    obtain ⟨c, _, rfl⟩ := hrc
    exact ⟨rfl, rfl⟩
  · simp [passthroughRanked]

/-- Witness for C6: the degradation theorem applied at a concrete
disabled reranker with one candidate. -/
theorem rerank_fallback_safe_witness :
    rerank false none [sampleCandidate] 5 =
      Except.ok (passthroughRanked [sampleCandidate] 5) ∧
    (passthroughRanked [sampleCandidate] 5).map RankedCandidate.candidate =
      [sampleCandidate].take 5 ∧
    (∀ rc ∈ passthroughRanked [sampleCandidate] 5,
      rc.reranked = false ∧ rc.rerankScore = none) ∧
    (passthroughRanked [sampleCandidate] 5).length =
      min 5 [sampleCandidate].length :=
  rerank_fallback_safe false none [sampleCandidate] 5 (Or.inl rfl)

/-- C7: an empty retrieval result flows through to a successful
completion, not a failure: the `answer` pipeline (modelled from the spec,
the backend source being absent from the snapshot) reaches `DONE` with
zero citations, and the client trace of `api.chatStream` over the
resulting stream contains an `onComplete` carrying the empty citations
array and no `onError` — likewise when no citations event arrives at
all. -/
theorem empty_retrieval_reaches_done_with_zero_citations
    (budget : Nat) (toks : List String) :
    runAnswer [] budget (some toks) = PipelineResult.done (String.join toks) [] ∧
    hasEmptyCitationsComplete (clientTrace (answerStreamEvents [] toks none)) = true ∧
    traceErrorFree (clientTrace (answerStreamEvents [] toks none)) = true ∧
    hasEmptyCitationsComplete (chatStreamTrace
      (toks.map (fun t => SSELine.data { chunk := some t }) ++
        [SSELine.data { status := some "done" }])) = true := by
  refine ⟨rfl, ?_, ?_, ?_⟩
  · rw [clientTrace_answerStream,
      hasEmptyCitationsComplete_cons_citations]
    exact hasEmptyComplete_tokens_done toks ""
  · rw [clientTrace_answerStream]
    have h := traceErrorFree_processLines
      (toks.map (fun t => SSELine.data { chunk := some t }) ++
        [serializeEvent (SEvent.done (String.join toks))])
      { fullResponse := "", citations := [] }
    simp only [traceErrorFree, List.all_cons] at h ⊢
    simp [h]
  · exact hasEmptyComplete_tokens_done toks ""

/-- C8: on any well-formed store state (the current id, when set, belongs
to some conversation — an invariant every store operation and every UI
call site preserves), `addMessage` with no current conversation prepends
a fresh conversation holding exactly the added message and makes it
current, titling it by the 50-character truncation rule for user messages
and `"New Chat"` otherwise; and in every case `getCurrentMessages` is
afterwards non-empty with the added message as its last element. -/
theorem addMessage_creates_or_appends
    (newId : String) (now : Nat) (message : ChatMessage) (st : ChatState)
    (hwf : ∀ id, st.currentConversationId = some id →
      ∃ c ∈ st.conversations, c.id = id) :
    (st.currentConversationId = none →
      addMessage newId now message st =
        { st with
          conversations := freshConversation newId now message :: st.conversations
          currentConversationId := some newId } ∧
      (freshConversation newId now message).messages = [message] ∧
      (freshConversation newId now message).title =
        (if message.role = Role.user then
          message.content.take 50 ++
            (if 50 < message.content.length then "..." else "")
        else "New Chat")) ∧
    getCurrentMessages (addMessage newId now message st) ≠ [] ∧
    (getCurrentMessages (addMessage newId now message st)).getLast? = some message := by
  cases hcur : st.currentConversationId with
  | none =>
    refine ⟨fun _ => ⟨?_, rfl, ?_⟩, ?_, ?_⟩
    · simp [addMessage, hcur]
    · cases hr : message.role <;>
        simp [freshConversation, generateTitle, hr, List.find?]
    · simp [addMessage, hcur, getCurrentMessages, freshConversation, List.find?]
    · simp [addMessage, hcur, getCurrentMessages, freshConversation, List.find?]
  | some cid =>
    obtain ⟨c0, hc0mem, hc0id⟩ := hwf cid hcur
    have hsome : (st.conversations.find? (fun c => some c.id = some cid)).isSome := by
      rw [List.find?_isSome]
      exact ⟨c0, hc0mem, by simp [hc0id]⟩
    obtain ⟨c1, hc1⟩ := Option.isSome_iff_exists.mp hsome
    have hc1id : c1.id = cid := by simpa using List.find?_some hc1
    have hmsgs : getCurrentMessages (addMessage newId now message st) =
        c1.messages ++ [message] := by
      simp only [addMessage, hcur, getCurrentMessages]
      rw [find?_id_map_appendHere, hc1]
      simp only [Option.map_some']
      unfold appendHere
      rw [if_pos hc1id]
    refine ⟨?_, ?_, ?_⟩
    · intro h
      exact Option.noConfusion h
    · rw [hmsgs]; simp
    · rw [hmsgs]; exact List.getLast?_concat _

/-- Witness for C8: the theorem applied at an empty store (trivially
well-formed) receiving a user message. -/
theorem addMessage_creates_or_appends_witness :
    getCurrentMessages (addMessage "id1" 5 { role := Role.user, content := "hi" }
      { conversations := [], currentConversationId := none, isStreaming := false }) ≠ [] ∧
    (getCurrentMessages (addMessage "id1" 5 { role := Role.user, content := "hi" }
      { conversations := [], currentConversationId := none, isStreaming := false })).getLast? =
      some { role := Role.user, content := "hi" } := by
  have h := addMessage_creates_or_appends "id1" 5
    { role := Role.user, content := "hi" }
    { conversations := [], currentConversationId := none, isStreaming := false }
    (fun _ h => Option.noConfusion h)
  exact ⟨h.2.1, h.2.2⟩

/-- Counterexample for C9: deleting the current conversation `"a"` from
`stC9` leaves a first remaining conversation whose id is the empty
string, yet `currentConversationId` becomes `null` rather than that id —
JavaScript `newConversations[0]?.id || null` coerces the falsy empty
string to `null`, refuting the claim's "becomes the id of the first
remaining conversation, or null when no conversations remain". -/
theorem deleteConversation_empty_id_counterexample :
    (deleteConversation "a" stC9).conversations.head?.map Conversation.id = some "" ∧
    (deleteConversation "a" stC9).conversations ≠ [] ∧
    (deleteConversation "a" stC9).currentConversationId = none ∧
    (deleteConversation "a" stC9).currentConversationId ≠ some "" := by
  refine ⟨rfl, by decide, rfl, by decide⟩

/-- C9 (amended): `deleteConversation id` removes exactly the
conversations whose id equals `id`, keeping all others unchanged and in
order; `currentConversationId` is unchanged unless it equaled `id`, in
which case it becomes the id of the first remaining conversation when
that id is a non-empty string, and `null` when no conversation remains or
the first remaining id is the empty string (JS `|| null` on a falsy
id). -/
theorem deleteConversation_removes_only_matching (id : String) (st : ChatState) :
    ((deleteConversation id st).conversations).Sublist st.conversations ∧
    (∀ c ∈ st.conversations, c.id ≠ id → c ∈ (deleteConversation id st).conversations) ∧
    (∀ c ∈ (deleteConversation id st).conversations, c ∈ st.conversations ∧ c.id ≠ id) ∧
    (st.currentConversationId ≠ some id →
      (deleteConversation id st).currentConversationId = st.currentConversationId) ∧
    (st.currentConversationId = some id →
      ((deleteConversation id st).conversations = [] →
        (deleteConversation id st).currentConversationId = none) ∧
      (∀ c, (deleteConversation id st).conversations.head? = some c →
        (deleteConversation id st).currentConversationId =
          (if c.id = "" then none else some c.id))) := by
  refine ⟨List.filter_sublist _, ?_, ?_, ?_, ?_⟩
  · intro c hc hne
    show c ∈ st.conversations.filter fun c => c.id ≠ id
    rw [List.mem_filter]
    exact ⟨hc, by simpa using hne⟩
  · intro c hc
    rw [show (deleteConversation id st).conversations =
        st.conversations.filter (fun c => c.id ≠ id) from rfl,
      List.mem_filter] at hc
    exact ⟨hc.1, by simpa using hc.2⟩
  · intro hne
    simp only [deleteConversation]
    rw [if_neg hne]
  · intro heq
    constructor
    · intro hnil
      simp only [deleteConversation] at hnil ⊢
      rw [if_pos heq, hnil]
      rfl
    · intro c hc
      simp only [deleteConversation] at hc ⊢
      rw [if_pos heq, hc]

/-- Witness for C9: the frame theorem applied at a concrete state whose
current conversation is not the deleted one. -/
theorem deleteConversation_removes_only_matching_witness :
    ((deleteConversation "x" stW).conversations).Sublist stW.conversations ∧
    (deleteConversation "x" stW).currentConversationId = stW.currentConversationId := by
  have h := deleteConversation_removes_only_matching "x" stW
  exact ⟨h.1, h.2.2.2.1 (by decide)⟩

/-- C10: `parsePrometheusMetrics` initializes `ingestion.documents` to
zero and no parsing branch ever assigns it, so for every Prometheus
payload and every possible regular-expression match outcome the parsed
result has `ingestion.documents = 0` — the metrics page's "Documents
Processed" figure is always 0. -/
theorem parsePrometheusMetrics_documents_always_zero
    (rx : RegexMatchers) (text : String) :
    (parsePrometheusMetrics rx text).ingestion.documents = 0 := by
  unfold parsePrometheusMetrics
  rw [foldl_parseMetricsLine_documents]
  rfl
